import Mathlib

/-!
Shallow embedding of `src/paperwork/frontend/util/config.py` (module
`paperwork.frontend.util.config`): the typed-setting layer
(`_ScanTimes`, `_PaperworkScannerCalibration`, `_PaperworkDate`,
`_PaperworkSize`, `_PaperworkRecent`) and the device initializer
(`_get_scanner` / `get_scanner`).

Modelling conventions:
* The persisted store (a `configparser` config) is a finite association
  list from `(section, option)` keys to string values; `ConfigStore.get`
  returns `none` where `configparser` would raise `NoSectionError` or
  `NoOptionError` (every `except` clause in the module catches these two
  together, so they are merged); `ConfigStore.set` prepends, and lookup
  takes the most recent binding.
* Python exceptions that are *not* caught (`ValueError` from `int()` /
  `float()` / `strptime`, driver errors escaping `_get_scanner`) appear
  as `Except.error`.
* Python `str.strip` and `int()` are external stdlib collaborators; they
  are embedded here for the ASCII fragment the module exercises:
  `pyStrip` strips ASCII whitespace from both ends, `pyStrToInt` strips,
  then accepts an optional single sign followed by a nonempty digit
  string.  `str()` on integers is Lean's `toString`, which is the same
  decimal representation CPython produces.
* `float()` (used only by `_ScanTimes.load`) and the base64 codec (used
  only by `_PaperworkRecent`) stay abstract: definitions take them as
  function parameters, theorems assume only the properties the stdlib
  guarantees (e.g. decoding inverts encoding).
-/

/-- ASCII whitespace recognised by Python `str.strip()` / `str.isspace()`
(space, tab, newline, carriage return, vertical tab, form feed). -/
def pyIsSpace (c : Char) : Bool :=
  c.toNat = 32 || c.toNat = 9 || c.toNat = 10 ||
  c.toNat = 13 || c.toNat = 11 || c.toNat = 12

/-- Strip `pyIsSpace` characters from both ends of a character list. -/
def stripList (l : List Char) : List Char :=
  ((l.dropWhile pyIsSpace).reverse.dropWhile pyIsSpace).reverse

/-- Python `str.strip()` (ASCII fragment): remove leading and trailing
whitespace. -/
def pyStrip (s : String) : String :=
  ⟨stripList s.data⟩

/-- Numeric value of a decimal digit character. -/
def digitVal (c : Char) : Nat :=
  c.toNat - 48

/-- Whether a character is a decimal digit (`0`..`9`). -/
def isDigitChar (c : Char) : Bool :=
  decide (48 ≤ c.toNat) && decide (c.toNat ≤ 57)

/-- Fold a digit string into the natural number it denotes. -/
def readDigits (l : List Char) : Nat :=
  l.foldl (fun a c => a * 10 + digitVal c) 0

/-- Parse a nonempty all-digit character list; `none` otherwise. -/
def digitsToNat (l : List Char) : Option Nat :=
  if l.isEmpty then none
  else if l.all isDigitChar then some (readDigits l)
  else none

/-- Interpret an optionally signed digit string as an integer. -/
def signedDigitsToInt : List Char → Option Int
  | [] => none
  | c :: rest =>
    if c = '-' then
      match digitsToNat rest with
      | none => none
      | some n => some (-(n : Int))
    else if c = '+' then
      match digitsToNat rest with
      | none => none
      | some n => some ((n : Int))
    else
      match digitsToNat (c :: rest) with
      | none => none
      | some n => some ((n : Int))

/-- Python `int(s)` on strings (fragment without underscore separators):
strip whitespace, allow one optional sign, then require a nonempty digit
string.  `none` models the `ValueError` that `int()` raises otherwise. -/
def pyStrToInt (s : String) : Option Int :=
  signedDigitsToInt (pyStrip s).data

/-- A `(section, option)` key of the persisted store. -/
abbrev ConfigKey := String × String

/-- The persisted store: a finite association list of string values,
newest binding first. -/
def ConfigStore := List (ConfigKey × String)

/-- Read a key; `none` stands for `configparser.NoSectionError` /
`NoOptionError` (always caught together in this module). -/
def ConfigStore.get (store : ConfigStore) (k : ConfigKey) : Option String :=
  match store with
  | [] => none
  | (k', v) :: rest => if k = k' then some v else ConfigStore.get rest k

/-- Write a key (`config.set`): prepend the new binding. -/
def ConfigStore.set (store : ConfigStore) (k : ConfigKey) (v : String) :
    ConfigStore :=
  (k, v) :: store

/-- State of `_PaperworkRecent` (`section`, `base_token`, `max_length`,
`value`); `sec` stands for the Python attribute `section`. -/
structure PaperworkRecent where
  sec : String
  baseToken : String
  maxLength : Nat
  value : List String
  deriving Repr, DecidableEq

/-- The `_PaperworkRecent.__init__` state (`value = []`). -/
def PaperworkRecent.init (sec baseToken : String) (maxLength : Nat) :
    PaperworkRecent :=
  ⟨sec, baseToken, maxLength, []⟩

/-- The store key `base_token + "_" + str(idx)` used by
`_PaperworkRecent.load` / `update` (paired with the section). -/
def PaperworkRecent.key (st : PaperworkRecent) (idx : Nat) : ConfigKey :=
  (st.sec, st.baseToken ++ "_" ++ toString idx)

/-- `_PaperworkRecent.push`: strip; ignore empty; ignore values already
present; append; pop the oldest (index 0) if the length now exceeds
`max_length`. -/
def PaperworkRecent.push (st : PaperworkRecent) (v : String) :
    PaperworkRecent :=
  let v := pyStrip v
  if v = "" then st
  else if v ∈ st.value then st
  else
    let val := st.value ++ [v]
    if st.maxLength < val.length then { st with value := val.tail }
    else { st with value := val }

/-- A sequence of `push` calls, oldest first. -/
def PaperworkRecent.pushAll (st : PaperworkRecent) (vs : List String) :
    PaperworkRecent :=
  vs.foldl PaperworkRecent.push st

/-- The `while True` loop body of `_PaperworkRecent.load`: read key
`idx`, base64-decode (the abstract `dec`), `push`, advance; stop at the
first missing key.  `fuel` bounds the iteration count; the caller passes
`store.length + 1`, which always reaches the first missing index because
a store with `L` entries holds at most `L` distinct keys. -/
def PaperworkRecent.loadLoop (dec : String → String) (store : ConfigStore) :
    Nat → Nat → PaperworkRecent → PaperworkRecent
  | 0, _, st => st
  | fuel + 1, idx, st =>
    match store.get (st.key idx) with
    | none => st
    | some v => PaperworkRecent.loadLoop dec store fuel (idx + 1) (st.push (dec v))

/-- `_PaperworkRecent.load`: reset `value` to `[]`, then read sequential
indexed keys from 0, decoding and `push`ing each, until the first
missing index. -/
def PaperworkRecent.load (dec : String → String) (st : PaperworkRecent)
    (store : ConfigStore) : PaperworkRecent :=
  PaperworkRecent.loadLoop dec store (store.length + 1) 0 { st with value := [] }

/-- The `for (idx, v) in enumerate(self.value)` loop of
`_PaperworkRecent.update`, writing entry `v` at index `idx` encoded with
the abstract base64 `enc`. -/
def PaperworkRecent.updateFrom (enc : String → String) (st : PaperworkRecent)
    (idx : Nat) (vs : List String) (store : ConfigStore) : ConfigStore :=
  match vs with
  | [] => store
  | v :: rest =>
    PaperworkRecent.updateFrom enc st (idx + 1) rest
      (store.set (st.key idx) (enc v))

/-- `_PaperworkRecent.update`: write each current entry at its positional
index, base64-encoded; nothing else is touched. -/
def PaperworkRecent.update (enc : String → String) (st : PaperworkRecent)
    (store : ConfigStore) : ConfigStore :=
  PaperworkRecent.updateFrom enc st 0 st.value store

/-- Outcome of a single `config.get` + numeric conversion, distinguishing
the caught `configparser` absence errors from the uncaught `ValueError`
of `int()`. -/
inductive ReadErr where
  | absent
  | valueError
  deriving Repr, DecidableEq

/-- Decidable equality for `Except`, used to evaluate embedded
operations on concrete inputs. -/
instance {e a : Type} [DecidableEq e] [DecidableEq a] :
    DecidableEq (Except e a) := fun x y =>
  match x, y with
  | .error u, .error v =>
    if h : u = v then isTrue (by rw [h])
    else isFalse (fun hc => by cases hc; exact h rfl)
  | .ok u, .ok v =>
    if h : u = v then isTrue (by rw [h])
    else isFalse (fun hc => by cases hc; exact h rfl)
  | .error _, .ok _ => isFalse (fun hc => by cases hc)
  | .ok _, .error _ => isFalse (fun hc => by cases hc)

/-- Read a key and convert with `int(...)`: absence gives
`ReadErr.absent`, a present but unparsable value gives
`ReadErr.valueError`. -/
def ConfigStore.getInt (store : ConfigStore) (k : ConfigKey) :
    Except ReadErr Int :=
  match store.get k with
  | none => .error .absent
  | some s =>
    match pyStrToInt s with
    | none => .error .valueError
    | some n => .ok n

/-- State of `_ScanTimes`: the dict `self.values` mapping phase names to
float durations (durations modelled as `Rat`). -/
structure ScanTimes where
  values : String → Option Rat

/-- The `__ITEM_2_CONFIG` table, in dict insertion order. -/
def ScanTimes.item2config : List (String × ConfigKey) :=
  [("calibration", ("Scanner", "ScanTimeCalibration")),
   ("normal", ("Scanner", "ScanTime")),
   ("ocr", ("OCR", "OCRTime"))]

/-- One iteration of `_ScanTimes.load`: on a present value run `float()`
(the abstract `floatParse`; `none` models the uncaught `ValueError`),
on absence pop any stale cached value for the phase. -/
def ScanTimes.loadStep (floatParse : String → Option Rat)
    (store : ConfigStore) (st : ScanTimes) (item : String × ConfigKey) :
    Except Unit ScanTimes :=
  match store.get item.2 with
  | some raw =>
    match floatParse raw with
    | some f => .ok ⟨fun k => if k = item.1 then some f else st.values k⟩
    | none => .error ()
  | none => .ok ⟨fun k => if k = item.1 then none else st.values k⟩

/-- `_ScanTimes.load`: iterate `loadStep` over the three known phases. -/
def ScanTimes.load (floatParse : String → Option Rat) (st : ScanTimes)
    (store : ConfigStore) : Except Unit ScanTimes :=
  ScanTimes.item2config.foldlM (ScanTimes.loadStep floatParse store) st

/-- `_ScanTimes.__getitem__`: a phase with no cached value reads back as
the fixed 60.0-second default. -/
def ScanTimes.getItem (st : ScanTimes) (item : String) : Rat :=
  (st.values item).getD 60

/-- Module constant `DEFAULT_CALIBRATION_RESOLUTION`. -/
def DEFAULT_CALIBRATION_RESOLUTION : Int := 200

/-- State of `_PaperworkScannerCalibration`: `value` is `None` or
`(resolution, ((pt_a_x, pt_a_y), (pt_b_x, pt_b_y)))`. -/
structure PaperworkScannerCalibration where
  sec : String
  value : Option (Int × ((Int × Int) × (Int × Int)))
  deriving Repr, DecidableEq

/-- `_PaperworkScannerCalibration.load`: read the four coordinates (any
absence is caught and yields `value = None`; an unparsable value raises,
modelled as `Except.error`), swap each axis so A ≤ B, then read the
resolution (absence defaults to 200 with a warning; an unparsable value
raises). -/
def PaperworkScannerCalibration.load (st : PaperworkScannerCalibration)
    (store : ConfigStore) : Except Unit PaperworkScannerCalibration :=
  let coords : Except ReadErr (Int × Int × Int × Int) := do
    let ax ← store.getInt ("Scanner", "Calibration_Pt_A_X")
    let ay ← store.getInt ("Scanner", "Calibration_Pt_A_Y")
    let bx ← store.getInt ("Scanner", "Calibration_Pt_B_X")
    let py ← store.getInt ("Scanner", "Calibration_Pt_B_Y")
    return (ax, ay, bx, py)
  match coords with
  | .error .absent => .ok { st with value := none }
  | .error .valueError => .error ()
  | .ok (ax, ay, bx, py) =>
    let p := if bx < ax then (bx, ax) else (ax, bx)
    let q := if py < ay then (py, ay) else (ay, py)
    match store.get ("Scanner", "Calibration_Resolution") with
    | none =>
      let res := DEFAULT_CALIBRATION_RESOLUTION
      .ok { st with value := some (res, ((p.1, q.1), (p.2, q.2))) }
    | some s =>
      match pyStrToInt s with
      | none => .error ()
      | some r => .ok { st with value := some (r, ((p.1, q.1), (p.2, q.2))) }

/-- Modelled from the spec: `PaperworkSetting` lives in
`paperwork_backend.config`, which is not under `src/`.  Per spec §4.1 a
plain setting (no conversion function, no default factory, as
`_PaperworkDate` constructs it) reads its `(section, key)` from the
store on `load`, with absence resolved to the `None` default and no
error propagated. -/
structure PaperworkSetting where
  sec : String
  token : String
  value : Option String
  deriving Repr, DecidableEq

/-- Modelled from the spec: `PaperworkSetting.load` for a plain string
setting — absence of the key yields the `None` default. -/
def PaperworkSetting.load (s : PaperworkSetting) (store : ConfigStore) :
    PaperworkSetting :=
  { s with value := store.get (s.sec, s.token) }

/-- A calendar date, the result of `datetime.strptime(v, "%Y-%m-%d")`. -/
structure PyDate where
  year : Nat
  month : Nat
  day : Nat
  deriving Repr, DecidableEq

/-- Python `datetime.strptime(s, "%Y-%m-%d")` (external stdlib): exactly
four year digits, dash, one or two month digits in 1..12, dash, one or
two day digits in 1..31; anything else raises `ValueError` (`none`).
The finer per-month day bound of `datetime` is not modelled; no claim
depends on it. -/
def parseDate (s : String) : Option PyDate :=
  match s.data.splitOn '-' with
  | [ys, ms, ds] =>
    if decide (ys.length = 4) && ys.all isDigitChar &&
        decide (1 ≤ ms.length) && decide (ms.length ≤ 2) && ms.all isDigitChar &&
        decide (1 ≤ ds.length) && decide (ds.length ≤ 2) && ds.all isDigitChar &&
        decide (1 ≤ readDigits ms) && decide (readDigits ms ≤ 12) &&
        decide (1 ≤ readDigits ds) && decide (readDigits ds ≤ 31) then
      some ⟨readDigits ys, readDigits ms, readDigits ds⟩
    else none
  | _ => none

/-- State of `_PaperworkDate`: section, token, the `default_value_func`
result (the factory is pure in this embedding) and the current value. -/
structure PaperworkDate where
  sec : String
  token : String
  defaultValue : PyDate
  value : PyDate
  deriving Repr, DecidableEq

/-- `_PaperworkDate.load`: read via the wrapped `PaperworkSetting`; a
`None` (absent) value invokes the default factory; otherwise
`strptime` parses the string and its `ValueError` is not caught
(`Except.error`). -/
def PaperworkDate.load (d : PaperworkDate) (store : ConfigStore) :
    Except Unit PaperworkDate :=
  let setting := PaperworkSetting.load ⟨d.sec, d.token, none⟩ store
  match setting.value with
  | none => .ok { d with value := d.defaultValue }
  | some s =>
    match parseDate s with
    | none => .error ()
    | some dt => .ok { d with value := dt }

/-- State of `_PaperworkSize` (`section`, `base_token`, `value`,
`default_size`, `min_size`). -/
structure PaperworkSize where
  sec : String
  baseToken : String
  value : Int × Int
  defaultSize : Int × Int
  minSize : Int × Int
  deriving Repr, DecidableEq

/-- `_PaperworkSize.load`: read width then height; an absent key (either
one) is caught and resets `value` to `default_size`; a present but
unparsable value raises `ValueError`, modelled as `Except.error`; each
successfully parsed dimension is independently clamped up to the
minimum. -/
def PaperworkSize.load (st : PaperworkSize) (store : ConfigStore) :
    Except Unit PaperworkSize :=
  match store.get (st.sec, st.baseToken ++ "_w") with
  | none => .ok { st with value := st.defaultSize }
  | some sw =>
    match pyStrToInt sw with
    | none => .error ()
    | some w =>
      let w := if w < st.minSize.1 then st.minSize.1 else w
      match store.get (st.sec, st.baseToken ++ "_h") with
      | none => .ok { st with value := st.defaultSize }
      | some sh =>
        match pyStrToInt sh with
        | none => .error ()
        | some h =>
          let h := if h < st.minSize.2 then st.minSize.2 else h
          .ok { st with value := (w, h) }

/-- `_PaperworkSize.update`: always write both dimensions as `str(...)`. -/
def PaperworkSize.update (st : PaperworkSize) (store : ConfigStore) :
    ConfigStore :=
  (store.set (st.sec, st.baseToken ++ "_w") (toString st.value.1)).set
    (st.sec, st.baseToken ++ "_h") (toString st.value.2)

/-- A scanner device as the driver reports it: name, the option names it
supports, which options accept a set (`pyinsane2.set_scanner_opt`
succeeding or raising), and the resolution its `resolution` option
currently reports. -/
structure ScanDevice where
  name : String
  options : List String
  setOptOk : String → Bool
  curResolution : Int

/-- The driver collaborator (`pyinsane2`): opening a device by id and
enumerating devices, each able to fail with a driver error. -/
structure ScannerDriver where
  openDev : Option String → Except String ScanDevice
  devices : Except String (List ScanDevice)

/-- The three configuration values `_get_scanner` reads from the
registry (`scanner_devid`, `scanner_source`, `scanner_resolution`). -/
structure ScannerConfig where
  scannerDevid : Option String
  scannerSource : Option String
  scannerResolution : Int

/-- `pyinsane2.set_scanner_opt` on one option of a device: succeeds or
raises a driver error. -/
def setScannerOpt (dev : ScanDevice) (opt : String) : Except String Unit :=
  if dev.setOptOk opt then .ok () else .error ("failed to set " ++ opt)

/-- Embedding of `_get_scanner`: open the device; set the source when
the option exists and either an explicit preferred list or the
configured source is truthy (failures here are *not* caught); set the
resolution when the option exists, falling back to the device's current
reported resolution when the set fails (this failure is caught); the
mode and scan-area steps catch their own failures and do not affect the
result.  Returns the device and the effective applied resolution. -/
def getScannerInner (cfg : ScannerConfig) (driver : ScannerDriver)
    (devid : Option String) (preferredSources : Option (List String)) :
    Except String (ScanDevice × Int) :=
  match driver.openDev devid with
  | .error e => .error e
  | .ok dev =>
    let wantPreferred : Bool :=
      match preferredSources with
      | some ps => !ps.isEmpty
      | none => false
    let wantConfig : Bool :=
      match cfg.scannerSource with
      | some s => !(s = "")
      | none => false
    let sourceStep : Except String Unit :=
      if "source" ∈ dev.options then
        if wantPreferred then setScannerOpt dev "source"
        else if wantConfig then setScannerOpt dev "source"
        else .ok ()
      else .ok ()
    match sourceStep with
    | .error e => .error e
    | .ok _ =>
      let resolution := cfg.scannerResolution
      let resolution :=
        if "resolution" ∈ dev.options then
          match setScannerOpt dev "resolution" with
          | .ok _ => resolution
          | .error _ => dev.curResolution
        else resolution
      .ok (dev, resolution)

/-- Embedding of `get_scanner`: try the configured device id; on failure
enumerate devices, drop those whose name starts with `"v4l:"`, retry on
a sole surviving candidate, and in every other case (zero or several
candidates, enumeration failure, or the retry itself failing) surface
the original error. -/
def get_scanner (cfg : ScannerConfig) (driver : ScannerDriver)
    (preferredSources : Option (List String)) :
    Except String (ScanDevice × Int) :=
  match getScannerInner cfg driver cfg.scannerDevid preferredSources with
  | .ok r => .ok r
  | .error exc =>
    match driver.devices with
    | .error _ => .error exc
    | .ok devs =>
      match devs.filter (fun d => !(d.name.take 4 = "v4l:")) with
      | [cand] =>
        match getScannerInner cfg driver (some cand.name) preferredSources with
        | .ok r => .ok r
        | .error _ => .error exc
      | _ => .error exc

/-! Decimal serialization: CPython `str()` of an integer is the same
decimal string Lean's `toString` produces, and `int()` inverts it.  The
following lemmas establish that `pyStrToInt` is a left inverse of
`toString` on `Nat` and `Int`, hence that `Nat.repr` is injective. -/

lemma digitVal_digitChar (m : Nat) (h : m < 10) :
    digitVal (Nat.digitChar m) = m := by
  interval_cases m <;> decide

lemma isDigitChar_digitChar (m : Nat) (h : m < 10) :
    isDigitChar (Nat.digitChar m) = true := by
  interval_cases m <;> decide

lemma toDigitsCore_eq_append (b : Nat) :
    ∀ (f n : Nat) (ds : List Char),
      Nat.toDigitsCore b f n ds = Nat.toDigitsCore b f n [] ++ ds := by
  intro f
  induction f with
  | zero => intro n ds; simp [Nat.toDigitsCore]
  | succ f ih =>
    intro n ds
    simp only [Nat.toDigitsCore]
    by_cases h : n / b = 0
    · simp [h]
    · simp only [if_neg h]
      rw [ih (n / b) (Nat.digitChar (n % b) :: ds), ih (n / b) [Nat.digitChar (n % b)]]
      simp

lemma toDigitsCore_all_digits :
    ∀ (f n : Nat) (c : Char), c ∈ Nat.toDigitsCore 10 f n [] →
      isDigitChar c = true := by
  intro f
  induction f with
  | zero => intro n c hc; simp [Nat.toDigitsCore] at hc
  | succ f ih =>
    intro n c hc
    simp only [Nat.toDigitsCore] at hc
    by_cases h : n / 10 = 0
    · simp [h] at hc
      subst hc
      exact isDigitChar_digitChar _ (Nat.mod_lt _ (by norm_num))
    · simp only [if_neg h] at hc
      rw [toDigitsCore_eq_append] at hc
      rcases List.mem_append.mp hc with h1 | h2
      · exact ih _ _ h1
      · simp at h2
        subst h2
        exact isDigitChar_digitChar _ (Nat.mod_lt _ (by norm_num))

lemma toDigits_ne_nil (n : Nat) : Nat.toDigits 10 n ≠ [] := by
  unfold Nat.toDigits
  simp only [Nat.toDigitsCore]
  by_cases h : n / 10 = 0
  · simp [h]
  · simp only [if_neg h]
    rw [toDigitsCore_eq_append]
    simp

lemma foldl_toDigitsCore (f : Nat) :
    ∀ (n acc : Nat), n < f →
      List.foldl (fun a c => a * 10 + digitVal c) acc (Nat.toDigitsCore 10 f n []) =
        acc * 10 ^ (Nat.toDigitsCore 10 f n []).length + n := by
  induction f with
  | zero => intro n acc h; exact absurd h (Nat.not_lt_zero n)
  | succ f ih =>
    intro n acc h
    simp only [Nat.toDigitsCore]
    by_cases h0 : n / 10 = 0
    · have hn : n < 10 := by
        have := Nat.div_add_mod n 10
        have := Nat.mod_lt n (show 0 < 10 by norm_num)
        omega
      simp [h0, List.foldl, Nat.mod_eq_of_lt hn]
      exact digitVal_digitChar n hn
    · have hpos : 0 < n := by
        rcases Nat.eq_zero_or_pos n with h' | h'
        · subst h'; simp at h0
        · exact h'
      have hlt : n / 10 < f :=
        lt_of_lt_of_le (Nat.div_lt_self hpos (by norm_num)) (Nat.le_of_lt_succ h)
      simp only [if_neg h0]
      rw [toDigitsCore_eq_append, List.foldl_append, ih (n / 10) acc hlt]
      simp only [List.foldl, List.length_append, List.length_cons, List.length_nil]
      rw [digitVal_digitChar _ (Nat.mod_lt _ (by norm_num)), pow_succ, ← mul_assoc]
      have hdm := Nat.div_add_mod n 10
      generalize acc * 10 ^ (Nat.toDigitsCore 10 f (n / 10) []).length = A at *
      omega

lemma readDigits_toDigits (n : Nat) : readDigits (Nat.toDigits 10 n) = n := by
  unfold readDigits Nat.toDigits
  rw [foldl_toDigitsCore (n + 1) n 0 (Nat.lt_succ_self n)]
  simp

lemma digitsToNat_toDigits (n : Nat) :
    digitsToNat (Nat.toDigits 10 n) = some n := by
  unfold digitsToNat
  rw [if_neg, if_pos, readDigits_toDigits]
  · rw [List.all_eq_true]
    intro c hc
    exact toDigitsCore_all_digits _ _ _ hc
  · simp [List.isEmpty_iff, toDigits_ne_nil]

lemma dropWhile_eq_self_of (l : List Char)
    (h : ∀ c ∈ l, pyIsSpace c = false) : l.dropWhile pyIsSpace = l := by
  cases l with
  | nil => rfl
  | cons c t => simp [List.dropWhile_cons, h c (by simp)]

lemma stripList_eq_self (l : List Char)
    (h : ∀ c ∈ l, pyIsSpace c = false) : stripList l = l := by
  unfold stripList
  rw [dropWhile_eq_self_of l h, dropWhile_eq_self_of l.reverse
    (fun c hc => h c (List.mem_reverse.mp hc)), List.reverse_reverse]

lemma pyIsSpace_of_digit (c : Char) (h : isDigitChar c = true) :
    pyIsSpace c = false := by
  simp [isDigitChar] at h
  simp [pyIsSpace]
  omega

lemma repr_data (n : Nat) : (Nat.repr n).data = Nat.toDigits 10 n := rfl

lemma ne_of_digit_char (c : Char) (h : isDigitChar c = true) (d : Char)
    (hd : d.toNat < 48) : ¬ c = d := by
  intro he
  subst he
  simp [isDigitChar] at h
  omega

lemma pyStrToInt_natRepr (n : Nat) : pyStrToInt (Nat.repr n) = some (n : Int) := by
  unfold pyStrToInt
  have hdata : (pyStrip (Nat.repr n)).data = Nat.toDigits 10 n := by
    show stripList (Nat.repr n).data = _
    rw [repr_data, stripList_eq_self]
    intro c hc
    exact pyIsSpace_of_digit c (toDigitsCore_all_digits _ _ _ hc)
  rw [hdata]
  rcases hl : Nat.toDigits 10 n with _ | ⟨c, rest⟩
  · exact absurd hl (toDigits_ne_nil n)
  · have hdig : isDigitChar c = true := by
      apply toDigitsCore_all_digits (n + 1) n
      show c ∈ Nat.toDigits 10 n
      rw [hl]; simp
    simp only [signedDigitsToInt]
    rw [if_neg (ne_of_digit_char c hdig '-' (by decide)),
      if_neg (ne_of_digit_char c hdig '+' (by decide)), ← hl,
      digitsToNat_toDigits]

lemma pyStrToInt_intRepr (i : Int) : pyStrToInt (toString i) = some i := by
  show pyStrToInt (Int.repr i) = some i
  cases i with
  | ofNat n =>
    show pyStrToInt (Nat.repr n) = some (Int.ofNat n)
    rw [pyStrToInt_natRepr]
    rfl
  | negSucc n =>
    show pyStrToInt ("-" ++ Nat.repr (n + 1)) = some (Int.negSucc n)
    unfold pyStrToInt
    have hnos : ∀ c ∈ ('-' :: Nat.toDigits 10 (n + 1) : List Char),
        pyIsSpace c = false := by
      intro c hc
      rcases List.mem_cons.mp hc with hc | hc
      · subst hc; decide
      · exact pyIsSpace_of_digit c (toDigitsCore_all_digits _ _ _ hc)
    have hdata : (pyStrip ("-" ++ Nat.repr (n + 1))).data =
        '-' :: Nat.toDigits 10 (n + 1) := by
      show stripList ("-" ++ Nat.repr (n + 1)).data = _
      have hd2 : ("-" ++ Nat.repr (n + 1)).data =
          '-' :: Nat.toDigits 10 (n + 1) := by
        rw [String.data_append, repr_data]
        rfl
      rw [hd2, stripList_eq_self _ hnos]
    rw [hdata]
    simp only [signedDigitsToInt]
    rw [if_pos trivial, digitsToNat_toDigits,
      show Int.negSucc n = -(((n + 1 : Nat) : Int)) by
        rw [Int.negSucc_eq]; push_cast; ring]

lemma natRepr_inj (m n : Nat) (h : Nat.repr m = Nat.repr n) : m = n := by
  have h2 := congrArg pyStrToInt h
  rw [pyStrToInt_natRepr, pyStrToInt_natRepr] at h2
  simpa using h2

/-! Lemmas about `_PaperworkRecent.push`. -/

lemma push_of_mem (st : PaperworkRecent) (v : String)
    (h : pyStrip v ∈ st.value) : st.push v = st := by
  unfold PaperworkRecent.push
  by_cases h0 : pyStrip v = ""
  · simp [h0]
  · simp [h0, h]

lemma allWhitespace_strip (v : String)
    (h : ∀ c ∈ v.data, pyIsSpace c = true) : pyStrip v = "" := by
  unfold pyStrip stripList
  rw [List.dropWhile_eq_nil_iff.mpr h]
  rfl

lemma push_of_whitespace (st : PaperworkRecent) (v : String)
    (h : ∀ c ∈ v.data, pyIsSpace c = true) : st.push v = st := by
  unfold PaperworkRecent.push
  simp [allWhitespace_strip v h]

lemma push_clean (st : PaperworkRecent) (v : String)
    (hstrip : pyStrip v = v) (hne : v ≠ "") (hmem : v ∉ st.value) :
    st.push v =
      if st.maxLength < st.value.length + 1 then
        { st with value := (st.value ++ [v]).tail }
      else { st with value := st.value ++ [v] } := by
  unfold PaperworkRecent.push
  simp [hstrip, hne, hmem]

lemma push_maxLength (st : PaperworkRecent) (v : String) :
    (st.push v).maxLength = st.maxLength := by
  unfold PaperworkRecent.push
  dsimp only
  repeat' split
  all_goals rfl

lemma push_sec (st : PaperworkRecent) (v : String) :
    (st.push v).sec = st.sec := by
  unfold PaperworkRecent.push
  dsimp only
  repeat' split
  all_goals rfl

lemma push_baseToken (st : PaperworkRecent) (v : String) :
    (st.push v).baseToken = st.baseToken := by
  unfold PaperworkRecent.push
  dsimp only
  repeat' split
  all_goals rfl

lemma push_invariant (st : PaperworkRecent)
    (hlen : st.value.length ≤ st.maxLength) (hnd : st.value.Nodup)
    (v : String) :
    (st.push v).value.length ≤ st.maxLength ∧ (st.push v).value.Nodup := by
  unfold PaperworkRecent.push
  by_cases h0 : pyStrip v = ""
  · simpa [h0] using ⟨hlen, hnd⟩
  by_cases h1 : pyStrip v ∈ st.value
  · simpa [h0, h1] using ⟨hlen, hnd⟩
  have hnd2 : (st.value ++ [pyStrip v]).Nodup := by
    simp [List.nodup_append, hnd, h1]
  by_cases h2 : st.maxLength < (st.value ++ [pyStrip v]).length
  · simp only [h0, h1, if_neg, if_pos h2, ite_false]
    constructor
    · simp only [List.length_tail, List.length_append, List.length_singleton]
      omega
    · exact hnd2.sublist (List.tail_sublist _)
  · simp only [h0, h1, if_neg, if_pos, ite_false, if_neg h2]
    refine ⟨?_, hnd2⟩
    simp only [List.length_append, List.length_singleton] at h2 ⊢
    omega

lemma pushAll_invariant (vs : List String) :
    ∀ (st : PaperworkRecent),
      st.value.length ≤ st.maxLength → st.value.Nodup →
      (st.pushAll vs).value.length ≤ (st.pushAll vs).maxLength ∧
        (st.pushAll vs).value.Nodup := by
  induction vs with
  | nil => intro st hlen hnd; exact ⟨hlen, hnd⟩
  | cons v vs ih =>
    intro st hlen hnd
    have hinv := push_invariant st hlen hnd v
    have hmax := push_maxLength st v
    show ((st.push v).pushAll vs).value.length ≤ _ ∧ _
    exact ih (st.push v) (hmax ▸ hinv.1) hinv.2

lemma pushAll_clean (vs : List String) :
    ∀ (st : PaperworkRecent),
      (∀ v ∈ vs, pyStrip v = v ∧ v ≠ "") →
      (st.value ++ vs).Nodup →
      st.value.length ≤ st.maxLength →
      (st.pushAll vs).value =
        (st.value ++ vs).drop (st.value.length + vs.length - st.maxLength) := by
  induction vs with
  | nil =>
    intro st _ _ hlen
    have h0 : st.value.length - st.maxLength = 0 := by omega
    simp [PaperworkRecent.pushAll, h0]
  | cons v vs ih =>
    intro st hclean hnd hlen
    have hv := hclean v (by simp)
    have hvmem : v ∉ st.value := by
      have := List.disjoint_of_nodup_append hnd
      intro hmem
      exact this hmem (by simp)
    have hstep : st.pushAll (v :: vs) = (st.push v).pushAll vs := rfl
    rw [hstep, push_clean st v hv.1 hv.2 hvmem]
    by_cases hfull : st.maxLength < st.value.length + 1
    · have hlen2 : st.value.length = st.maxLength := by omega
      rw [if_pos hfull]
      have hsub : ((st.value ++ [v]).tail ++ vs).Sublist (st.value ++ v :: vs) := by
        have hre : st.value ++ v :: vs = (st.value ++ [v]) ++ vs := by simp
        rw [hre]
        exact List.Sublist.append_right (List.tail_sublist _) vs
      have hnd2 : (((st.value ++ [v]).tail) ++ vs).Nodup :=
        List.Nodup.sublist hsub hnd
      have htl : ((st.value ++ [v]).tail).length ≤ st.maxLength := by
        simp only [List.length_tail, List.length_append, List.length_singleton]
        omega
      have hres := ih { st with value := (st.value ++ [v]).tail }
        (fun w hw => hclean w (by simp [hw])) hnd2 htl
      rw [hres]
      simp only [List.length_tail, List.length_append, List.length_singleton,
        List.length_cons]
      rw [show (st.value ++ [v]).tail = (st.value ++ [v]).drop 1 from
        (List.drop_one _).symm]
      rw [← List.drop_append_of_le_length (by simp), List.drop_drop]
      rw [show (st.value ++ [v]) ++ vs = st.value ++ v :: vs by simp]
      congr 1
      simp only [List.length_nil]
      omega
    · rw [if_neg hfull]
      have hnd2 : ((st.value ++ [v]) ++ vs).Nodup := by simpa using hnd
      have hres := ih { st with value := st.value ++ [v] }
        (fun w hw => hclean w (by simp [hw]))
        hnd2 (by simp only [List.length_append, List.length_singleton]; omega)
      rw [hres]
      simp only [List.length_append, List.length_singleton, List.length_cons]
      rw [show (st.value ++ [v]) ++ vs = st.value ++ v :: vs by simp]
      congr 1
      simp only [List.length_nil]
      omega

/-- C1: pushing a value already present (after stripping) leaves the
Recent List unchanged; pushing a whitespace-only string leaves it
unchanged; any sequence of pushes starting from the initial state keeps
the length at most `max_length` with no duplicates; and pushing more
than `max_length` clean distinct values leaves exactly the
`max_length` most recently pushed ones in order, oldest evicted
first. -/
theorem recent_push_invariants :
    (∀ (st : PaperworkRecent) (v : String), pyStrip v ∈ st.value →
      st.push v = st) ∧
    (∀ (st : PaperworkRecent) (v : String),
      (∀ c ∈ v.data, pyIsSpace c = true) → st.push v = st) ∧
    (∀ (s b : String) (m : Nat) (vs : List String),
      ((PaperworkRecent.init s b m).pushAll vs).value.length ≤ m ∧
      ((PaperworkRecent.init s b m).pushAll vs).value.Nodup) ∧
    (∀ (s b : String) (m : Nat) (vs : List String),
      (∀ v ∈ vs, pyStrip v = v ∧ v ≠ "") → vs.Nodup → m < vs.length →
      ((PaperworkRecent.init s b m).pushAll vs).value =
        vs.drop (vs.length - m) ∧
      ((PaperworkRecent.init s b m).pushAll vs).value.length = m) := by
  refine ⟨push_of_mem, push_of_whitespace, ?_, ?_⟩
  · intro s b m vs
    have h := pushAll_invariant vs (PaperworkRecent.init s b m)
      (by simp [PaperworkRecent.init]) (by simp [PaperworkRecent.init])
    have hmax : ((PaperworkRecent.init s b m).pushAll vs).maxLength = m := by
      have : ∀ (ws : List String) (st : PaperworkRecent),
          (st.pushAll ws).maxLength = st.maxLength := by
        intro ws
        induction ws with
        | nil => intro st; rfl
        | cons w ws ih =>
          intro st
          show ((st.push w).pushAll ws).maxLength = _
          rw [ih (st.push w), push_maxLength]
      exact this vs _
    exact ⟨h.1.trans (le_of_eq hmax), h.2⟩
  · intro s b m vs hclean hnd hlt
    have h := pushAll_clean vs (PaperworkRecent.init s b m) hclean
      (by simpa [PaperworkRecent.init] using hnd)
      (by simp [PaperworkRecent.init])
    simp only [PaperworkRecent.init, List.nil_append, List.length_nil,
      Nat.zero_add] at h
    refine ⟨h, ?_⟩
    simp only [PaperworkRecent.init]
    rw [h, List.length_drop]
    omega

/-- Witness for C1 at concrete inputs. -/
theorem recent_push_invariants_witness :
    (pyStrip " a " ∈ (⟨"recent", "doc", 3, ["a"]⟩ : PaperworkRecent).value ∧
      (⟨"recent", "doc", 3, ["a"]⟩ : PaperworkRecent).push " a " =
        ⟨"recent", "doc", 3, ["a"]⟩) ∧
    ((∀ c ∈ ("  " : String).data, pyIsSpace c = true) ∧
      (⟨"recent", "doc", 3, ["a"]⟩ : PaperworkRecent).push "  " =
        ⟨"recent", "doc", 3, ["a"]⟩) ∧
    (((PaperworkRecent.init "recent" "doc" 2).pushAll
        ["a", "b", "c"]).value.length ≤ 2) ∧
    ((PaperworkRecent.init "recent" "doc" 2).pushAll
        ["a", "b", "c"]).value = ["b", "c"] := by
  have h1 := recent_push_invariants.1 ⟨"recent", "doc", 3, ["a"]⟩ " a "
    (by decide)
  have h2 := recent_push_invariants.2.1 ⟨"recent", "doc", 3, ["a"]⟩ "  "
    (by decide)
  have h3 := (recent_push_invariants.2.2.1 "recent" "doc" 2
    ["a", "b", "c"]).1
  have h4 := (recent_push_invariants.2.2.2 "recent" "doc" 2 ["a", "b", "c"]
    (by decide) (by decide) (by decide)).1
  exact ⟨⟨by decide, h1⟩, ⟨by decide, h2⟩, h3, by rw [h4]; rfl⟩

/-- C2: whenever the four calibration coordinate keys are present and
parse as integers, a completed load stores a record whose point A and
point B satisfy `A.x ≤ B.x` and `A.y ≤ B.y`, each axis swapped
independently when the persisted order was reversed. -/
theorem calibration_load_normalizes
    (st : PaperworkScannerCalibration) (store : ConfigStore)
    (ax ay bx py : Int)
    (h1 : store.getInt ("Scanner", "Calibration_Pt_A_X") = .ok ax)
    (h2 : store.getInt ("Scanner", "Calibration_Pt_A_Y") = .ok ay)
    (h3 : store.getInt ("Scanner", "Calibration_Pt_B_X") = .ok bx)
    (h4 : store.getInt ("Scanner", "Calibration_Pt_B_Y") = .ok py) :
    ∀ rec, st.load store = .ok rec →
      ∃ res pA pB, rec.value = some (res, (pA, pB)) ∧
        pA.1 ≤ pB.1 ∧ pA.2 ≤ pB.2 := by
  intro rec hrec
  unfold PaperworkScannerCalibration.load at hrec
  rw [h1, h2, h3, h4] at hrec
  simp only [Except.bind, bind, pure, Except.pure] at hrec
  rcases hres : store.get ("Scanner", "Calibration_Resolution") with _ | s
  · rw [hres] at hrec
    simp only [Except.ok.injEq] at hrec
    subst hrec
    refine ⟨DEFAULT_CALIBRATION_RESOLUTION, _, _, rfl, ?_, ?_⟩ <;>
      dsimp only <;> split <;> simp <;> omega
  · rw [hres] at hrec
    dsimp only at hrec
    rcases hparse : pyStrToInt s with _ | r
    · rw [hparse] at hrec
      exact absurd hrec (by simp)
    · rw [hparse] at hrec
      simp only [Except.ok.injEq] at hrec
      subst hrec
      refine ⟨r, _, _, rfl, ?_, ?_⟩ <;>
        dsimp only <;> split <;> simp <;> omega

/-- Witness for C2: persisted A=(5,7), B=(2,1) loads as A=(2,1),
B=(5,7). -/
theorem calibration_load_normalizes_witness :
    (ConfigStore.getInt
      [(("Scanner", "Calibration_Pt_A_X"), "5"),
       (("Scanner", "Calibration_Pt_A_Y"), "7"),
       (("Scanner", "Calibration_Pt_B_X"), "2"),
       (("Scanner", "Calibration_Pt_B_Y"), "1")]
      ("Scanner", "Calibration_Pt_A_X") = .ok 5) ∧
    ∃ res pA pB,
      ∀ rec,
        PaperworkScannerCalibration.load ⟨"Scanner", none⟩
          [(("Scanner", "Calibration_Pt_A_X"), "5"),
           (("Scanner", "Calibration_Pt_A_Y"), "7"),
           (("Scanner", "Calibration_Pt_B_X"), "2"),
           (("Scanner", "Calibration_Pt_B_Y"), "1")] = .ok rec →
        rec.value = some (res, (pA, pB)) ∧ pA.1 ≤ pB.1 ∧ pA.2 ≤ pB.2 := by
  constructor
  · decide
  · refine ⟨200, (2, 1), (5, 7), ?_⟩
    intro rec hrec
    have h := calibration_load_normalizes ⟨"Scanner", none⟩ _ 5 7 2 1
      (by decide) (by decide) (by decide) (by decide) rec hrec
    have hval : rec.value = some (200, ((2, 1), (5, 7))) := by
      have : PaperworkScannerCalibration.load ⟨"Scanner", none⟩
          [(("Scanner", "Calibration_Pt_A_X"), "5"),
           (("Scanner", "Calibration_Pt_A_Y"), "7"),
           (("Scanner", "Calibration_Pt_B_X"), "2"),
           (("Scanner", "Calibration_Pt_B_Y"), "1")] =
          .ok ⟨"Scanner", some (200, ((2, 1), (5, 7)))⟩ := by decide
      rw [this] at hrec
      cases hrec
      rfl
    exact ⟨hval, by decide, by decide⟩

/-- C5: a Date Setting load with a present but nonconforming value
propagates the parse failure; with the value absent it applies the
default-value factory and raises nothing. -/
theorem date_load_spec (d : PaperworkDate) (store : ConfigStore) :
    (∀ s, store.get (d.sec, d.token) = some s → parseDate s = none →
      d.load store = .error ()) ∧
    (store.get (d.sec, d.token) = none →
      d.load store = .ok { d with value := d.defaultValue }) := by
  constructor
  · intro s hs hp
    unfold PaperworkDate.load PaperworkSetting.load
    dsimp only
    rw [hs]
    dsimp only
    rw [hp]
  · intro h
    unfold PaperworkDate.load PaperworkSetting.load
    dsimp only
    rw [h]

/-- Witness for C5: `"garbage"` fails the parse and the failure
surfaces; an absent key loads the default. -/
theorem date_load_spec_witness :
    (ConfigStore.get [(("Update", "last_check"), "garbage")]
        ("Update", "last_check") = some "garbage" ∧
      parseDate "garbage" = none ∧
      PaperworkDate.load ⟨"Update", "last_check", ⟨1970, 1, 1⟩, ⟨1970, 1, 1⟩⟩
        [(("Update", "last_check"), "garbage")] = .error ()) ∧
    (ConfigStore.get [] ("Update", "last_check") = none ∧
      PaperworkDate.load ⟨"Update", "last_check", ⟨1970, 1, 1⟩, ⟨2000, 5, 5⟩⟩
        [] = .ok ⟨"Update", "last_check", ⟨1970, 1, 1⟩, ⟨1970, 1, 1⟩⟩) := by
  refine ⟨⟨by decide, by decide, ?_⟩, ⟨by decide, ?_⟩⟩
  · exact (date_load_spec ⟨"Update", "last_check", ⟨1970, 1, 1⟩, ⟨1970, 1, 1⟩⟩
      [(("Update", "last_check"), "garbage")]).1 "garbage" (by decide)
      (by decide)
  · exact (date_load_spec ⟨"Update", "last_check", ⟨1970, 1, 1⟩, ⟨2000, 5, 5⟩⟩
      []).2 (by decide)

/-- C8: when the device has a `resolution` option but rejects the
configured value, `_get_scanner` succeeds and returns the device's
current reported resolution as the effective applied resolution. -/
theorem resolution_fallback_effective
    (cfg : ScannerConfig) (driver : ScannerDriver) (devid : Option String)
    (preferred : Option (List String)) (dev : ScanDevice)
    (hopen : driver.openDev devid = .ok dev)
    (hres : "resolution" ∈ dev.options)
    (hfail : dev.setOptOk "resolution" = false)
    (hsrc : "source" ∈ dev.options → dev.setOptOk "source" = true) :
    getScannerInner cfg driver devid preferred =
      .ok (dev, dev.curResolution) := by
  unfold getScannerInner
  rw [hopen]
  dsimp only
  have hsstep :
      (if "source" ∈ dev.options then
        if (match preferred with
            | some ps => !ps.isEmpty
            | none => false) then setScannerOpt dev "source"
        else if (match cfg.scannerSource with
            | some s => !(s = "")
            | none => false) then setScannerOpt dev "source"
        else Except.ok ()
      else Except.ok ()) = Except.ok () := by
    by_cases hin : "source" ∈ dev.options
    · rw [if_pos hin]
      have hok : setScannerOpt dev "source" = .ok () := by
        unfold setScannerOpt
        rw [hsrc hin]
        rfl
      split
      · exact hok
      · split
        · exact hok
        · rfl
    · rw [if_neg hin]
  rw [hsstep]
  dsimp only
  rw [if_pos hres]
  unfold setScannerOpt
  rw [hfail]
  rfl

/-- Witness for C8: configured resolution 300, device reports 150 and
rejects the set; the returned effective resolution is 150. -/
theorem resolution_fallback_effective_witness :
    (ScannerDriver.openDev
        ⟨fun _ => .ok ⟨"X", ["resolution"], fun _ => false, 150⟩, .ok []⟩
        (some "X") = .ok ⟨"X", ["resolution"], fun _ => false, 150⟩) ∧
    ("resolution" ∈ (["resolution"] : List String)) ∧
    getScannerInner ⟨some "X", none, 300⟩
      ⟨fun _ => .ok ⟨"X", ["resolution"], fun _ => false, 150⟩, .ok []⟩
      (some "X") none =
      .ok (⟨"X", ["resolution"], fun _ => false, 150⟩, 150) :=
  ⟨rfl, by decide,
    resolution_fallback_effective ⟨some "X", none, 300⟩
      ⟨fun _ => .ok ⟨"X", ["resolution"], fun _ => false, 150⟩, .ok []⟩
      (some "X") none ⟨"X", ["resolution"], fun _ => false, 150⟩
      rfl (by decide) rfl (by decide)⟩

/-- C3: when configuring the configured device id fails, the fallback
filters out `"v4l:"`-prefixed devices; with exactly one candidate the
retry's success is returned; with zero or several candidates, with a
failing enumeration, or with the retry itself failing, the caller sees
the original error. -/
theorem get_scanner_fallback_spec
    (cfg : ScannerConfig) (driver : ScannerDriver)
    (preferred : Option (List String)) (e : String)
    (hfail : getScannerInner cfg driver cfg.scannerDevid preferred =
      .error e) :
    (∀ devs cand r, driver.devices = .ok devs →
      devs.filter (fun d => !(d.name.take 4 = "v4l:")) = [cand] →
      getScannerInner cfg driver (some cand.name) preferred = .ok r →
      get_scanner cfg driver preferred = .ok r) ∧
    (∀ devs, driver.devices = .ok devs →
      (devs.filter (fun d => !(d.name.take 4 = "v4l:"))).length ≠ 1 →
      get_scanner cfg driver preferred = .error e) ∧
    (∀ devs cand e2, driver.devices = .ok devs →
      devs.filter (fun d => !(d.name.take 4 = "v4l:")) = [cand] →
      getScannerInner cfg driver (some cand.name) preferred = .error e2 →
      get_scanner cfg driver preferred = .error e) ∧
    (∀ e3, driver.devices = .error e3 →
      get_scanner cfg driver preferred = .error e) := by
  refine ⟨?_, ?_, ?_, ?_⟩
  · intro devs cand r hdevs hfilter hretry
    unfold get_scanner
    rw [hfail, hdevs]
    dsimp only
    rw [hfilter]
    dsimp only
    rw [hretry]
  · intro devs hdevs hlen
    unfold get_scanner
    rw [hfail, hdevs]
    dsimp only
    rcases hl : devs.filter (fun d => !(d.name.take 4 = "v4l:")) with
      _ | ⟨a, _ | ⟨b, t⟩⟩
    · rw [hl]
    · rw [hl] at hlen
      simp at hlen
    · rw [hl]
  · intro devs cand e2 hdevs hfilter hretry
    unfold get_scanner
    rw [hfail, hdevs]
    dsimp only
    rw [hfilter]
    dsimp only
    rw [hretry]
  · intro e3 hdevs
    unfold get_scanner
    rw [hfail, hdevs]

/-- Witness for C3: with device "X" failing to open, a sole non-v4l
candidate "Y" is retried and its result returned; with two candidates
the original "X" failure is surfaced. -/
theorem get_scanner_fallback_spec_witness :
    (getScannerInner ⟨some "X", none, 300⟩
      ⟨fun d => if d = some "Y" then
          .ok ⟨"Y", ["resolution"], fun _ => true, 150⟩
        else .error "X failed",
       .ok [⟨"v4l:cam0", [], fun _ => true, 0⟩,
            ⟨"Y", ["resolution"], fun _ => true, 150⟩]⟩
      (some "X") none = .error "X failed") ∧
    (get_scanner ⟨some "X", none, 300⟩
      ⟨fun d => if d = some "Y" then
          .ok ⟨"Y", ["resolution"], fun _ => true, 150⟩
        else .error "X failed",
       .ok [⟨"v4l:cam0", [], fun _ => true, 0⟩,
            ⟨"Y", ["resolution"], fun _ => true, 150⟩]⟩
      none = .ok (⟨"Y", ["resolution"], fun _ => true, 150⟩, 300)) ∧
    (get_scanner ⟨some "X", none, 300⟩
      ⟨fun d => if d = some "Y" then
          .ok ⟨"Y", ["resolution"], fun _ => true, 150⟩
        else .error "X failed",
       .ok [⟨"Y", ["resolution"], fun _ => true, 150⟩,
            ⟨"Z", [], fun _ => true, 0⟩]⟩
      none = .error "X failed") := by
  refine ⟨rfl, ?_, ?_⟩
  · exact (get_scanner_fallback_spec ⟨some "X", none, 300⟩
      ⟨fun d => if d = some "Y" then
          .ok ⟨"Y", ["resolution"], fun _ => true, 150⟩
        else .error "X failed",
       .ok [⟨"v4l:cam0", [], fun _ => true, 0⟩,
            ⟨"Y", ["resolution"], fun _ => true, 150⟩]⟩
      none "X failed" rfl).1
      [⟨"v4l:cam0", [], fun _ => true, 0⟩,
       ⟨"Y", ["resolution"], fun _ => true, 150⟩]
      ⟨"Y", ["resolution"], fun _ => true, 150⟩
      (⟨"Y", ["resolution"], fun _ => true, 150⟩, 300) rfl rfl rfl
  · exact (get_scanner_fallback_spec ⟨some "X", none, 300⟩
      ⟨fun d => if d = some "Y" then
          .ok ⟨"Y", ["resolution"], fun _ => true, 150⟩
        else .error "X failed",
       .ok [⟨"Y", ["resolution"], fun _ => true, 150⟩,
            ⟨"Z", [], fun _ => true, 0⟩]⟩
      none "X failed" rfl).2.1
      [⟨"Y", ["resolution"], fun _ => true, 150⟩,
       ⟨"Z", [], fun _ => true, 0⟩] rfl (by decide)

/-- Counterexample for C4: a present but unparsable width makes
`_PaperworkSize.load` raise `ValueError` (only the two `configparser`
absence errors are caught), and a present but unparsable scan time makes
`_ScanTimes.load` raise `ValueError`; neither applies a default. -/
theorem malformed_value_raises_cex :
    PaperworkSize.load
      ⟨"GUI", "main_win_size", (1024, 768), (1024, 768), (400, 300)⟩
      [(("GUI", "main_win_size_w"), "abc")] = .error () ∧
    ScanTimes.load (fun _ => none) ⟨fun _ => none⟩
      [(("Scanner", "ScanTime"), "oops")] = .error () := by
  constructor
  · decide
  · rfl

/-- C4 as amended: for the Size Pair and the Scan-Time Table only an
*absent* key is recovered locally (the Size Pair resets both dimensions
to the default pair, the Scan-Time Table drops the phase's cached
value); a *present but unparsable* value raises to the caller. -/
theorem malformed_value_only_absent_defaulted :
    (∀ (st : PaperworkSize) (store : ConfigStore),
      store.get (st.sec, st.baseToken ++ "_w") = none →
      st.load store = .ok { st with value := st.defaultSize }) ∧
    (∀ (st : PaperworkSize) (store : ConfigStore) (s : String),
      store.get (st.sec, st.baseToken ++ "_w") = some s →
      pyStrToInt s = none →
      st.load store = .error ()) ∧
    (∀ (fp : String → Option Rat) (st : ScanTimes) (store : ConfigStore),
      (∀ item ∈ ScanTimes.item2config, store.get item.2 = none) →
      ∃ st2, st.load fp store = .ok st2 ∧
        ∀ k ∈ (["calibration", "normal", "ocr"] : List String),
          st2.values k = none) ∧
    (∀ (fp : String → Option Rat) (st : ScanTimes) (store : ConfigStore)
      (raw : String),
      store.get ("Scanner", "ScanTimeCalibration") = some raw →
      fp raw = none →
      st.load fp store = .error ()) := by
  refine ⟨?_, ?_, ?_, ?_⟩
  · intro st store hw
    unfold PaperworkSize.load
    rw [hw]
  · intro st store s hw hp
    unfold PaperworkSize.load
    rw [hw]
    dsimp only
    rw [hp]
  · intro fp st store habs
    have h1 := habs ("calibration", ("Scanner", "ScanTimeCalibration"))
      (by simp [ScanTimes.item2config])
    have h2 := habs ("normal", ("Scanner", "ScanTime"))
      (by simp [ScanTimes.item2config])
    have h3 := habs ("ocr", ("OCR", "OCRTime"))
      (by simp [ScanTimes.item2config])
    refine ⟨⟨fun k => if k = "ocr" then none
      else if k = "normal" then none
      else if k = "calibration" then none
      else st.values k⟩, ?_, ?_⟩
    · unfold ScanTimes.load ScanTimes.item2config
      simp only [List.foldlM, ScanTimes.loadStep, h1, h2, h3, bind, pure,
        Except.bind, Except.pure]
    · intro k hk
      fin_cases hk <;> simp
  · intro fp st store raw hraw hparse
    unfold ScanTimes.load ScanTimes.item2config
    simp only [List.foldlM, ScanTimes.loadStep, hraw, hparse, bind, pure,
      Except.bind, Except.pure]

/-- Witness for the amended C4 at concrete inputs. -/
theorem malformed_value_only_absent_defaulted_witness :
    (ConfigStore.get [] ("GUI", "main_win_size_w") = none ∧
      PaperworkSize.load
        ⟨"GUI", "main_win_size", (500, 400), (1024, 768), (400, 300)⟩ [] =
        .ok ⟨"GUI", "main_win_size", (1024, 768), (1024, 768), (400, 300)⟩) ∧
    (pyStrToInt "abc" = none ∧
      PaperworkSize.load
        ⟨"GUI", "main_win_size", (1024, 768), (1024, 768), (400, 300)⟩
        [(("GUI", "main_win_size_w"), "abc")] = .error ()) ∧
    (∃ st2, ScanTimes.load (fun _ => none) ⟨fun _ => some 5⟩ [] = .ok st2 ∧
      ∀ k ∈ (["calibration", "normal", "ocr"] : List String),
        st2.values k = none) ∧
    (ScanTimes.load (fun _ => none) ⟨fun _ => none⟩
      [(("Scanner", "ScanTimeCalibration"), "bad")] = .error ()) := by
  refine ⟨⟨by decide, ?_⟩, ⟨by decide, ?_⟩, ?_, ?_⟩
  · exact malformed_value_only_absent_defaulted.1
      ⟨"GUI", "main_win_size", (500, 400), (1024, 768), (400, 300)⟩ []
      (by decide)
  · exact malformed_value_only_absent_defaulted.2.1
      ⟨"GUI", "main_win_size", (1024, 768), (1024, 768), (400, 300)⟩
      [(("GUI", "main_win_size_w"), "abc")] "abc" (by decide) (by decide)
  · exact malformed_value_only_absent_defaulted.2.2.1
      (fun _ => none) ⟨fun _ => some 5⟩ [] (fun item _ => rfl)
  · exact malformed_value_only_absent_defaulted.2.2.2
      (fun _ => none) ⟨fun _ => none⟩
      [(("Scanner", "ScanTimeCalibration"), "bad")] "bad" (by decide) rfl

/-! Store get/set lemmas. -/

lemma get_set_same (store : ConfigStore) (k : ConfigKey) (v : String) :
    (store.set k v).get k = some v := by
  simp [ConfigStore.get, ConfigStore.set]

lemma get_set_other (store : ConfigStore) (k kq : ConfigKey) (v : String)
    (h : kq ≠ k) : (store.set k v).get kq = store.get kq := by
  simp [ConfigStore.get, ConfigStore.set, h]

lemma size_key_ne (base : String) : base ++ "_w" ≠ base ++ "_h" := by
  intro h
  have h2 := congrArg String.data h
  rw [String.data_append, String.data_append] at h2
  exact absurd (List.append_cancel_left h2) (by decide)

lemma size_load_update (st : PaperworkSize) (store : ConfigStore) :
    PaperworkSize.load st (st.update store) =
      .ok { st with value :=
        (if st.value.1 < st.minSize.1 then st.minSize.1 else st.value.1,
         if st.value.2 < st.minSize.2 then st.minSize.2 else st.value.2) } := by
  unfold PaperworkSize.update PaperworkSize.load
  have hne : (st.sec, st.baseToken ++ "_w") ≠ (st.sec, st.baseToken ++ "_h") :=
    fun hc => size_key_ne st.baseToken (congrArg Prod.snd hc)
  rw [get_set_other _ _ _ _ hne, get_set_same]
  dsimp only
  rw [pyStrToInt_intRepr]
  dsimp only
  rw [get_set_same]
  dsimp only
  rw [pyStrToInt_intRepr]

/-- C7: writing a Size Pair and loading it back reproduces the same pair
when both dimensions are at least the configured minimum; a dimension
below the minimum is independently raised to the minimum rather than
rejected. -/
theorem size_roundtrip (st : PaperworkSize) (store : ConfigStore)
    (w h : Int) :
    (st.minSize.1 ≤ w → st.minSize.2 ≤ h →
      PaperworkSize.load { st with value := (w, h) }
        (PaperworkSize.update { st with value := (w, h) } store) =
        .ok { st with value := (w, h) }) ∧
    (PaperworkSize.load { st with value := (w, h) }
        (PaperworkSize.update { st with value := (w, h) } store) =
        .ok { st with value :=
          (if w < st.minSize.1 then st.minSize.1 else w,
           if h < st.minSize.2 then st.minSize.2 else h) }) := by
  constructor
  · intro hw hh
    rw [size_load_update { st with value := (w, h) } store]
    dsimp only
    rw [if_neg (not_lt.mpr hw), if_neg (not_lt.mpr hh)]
  · exact size_load_update { st with value := (w, h) } store

/-- Witness for C7: (500, 310) with minimum (400, 300) round-trips
unchanged; (200, 310) loads back as (400, 310). -/
theorem size_roundtrip_witness :
    ((400 : Int) ≤ 500 ∧ (300 : Int) ≤ 310 ∧
      PaperworkSize.load
        ⟨"GUI", "main_win_size", (500, 310), (1024, 768), (400, 300)⟩
        (PaperworkSize.update
          ⟨"GUI", "main_win_size", (500, 310), (1024, 768), (400, 300)⟩ []) =
        .ok ⟨"GUI", "main_win_size", (500, 310), (1024, 768), (400, 300)⟩) ∧
    PaperworkSize.load
      ⟨"GUI", "main_win_size", (200, 310), (1024, 768), (400, 300)⟩
      (PaperworkSize.update
        ⟨"GUI", "main_win_size", (200, 310), (1024, 768), (400, 300)⟩ []) =
      .ok ⟨"GUI", "main_win_size", (400, 310), (1024, 768), (400, 300)⟩ := by
  refine ⟨⟨by decide, by decide, ?_⟩, ?_⟩
  · exact (size_roundtrip
      ⟨"GUI", "main_win_size", (0, 0), (1024, 768), (400, 300)⟩ [] 500 310).1
      (by decide) (by decide)
  · have := (size_roundtrip
      ⟨"GUI", "main_win_size", (0, 0), (1024, 768), (400, 300)⟩ [] 200 310).2
    rw [this]
    decide

lemma natRepr_data_inj (m n : Nat)
    (h : (Nat.repr m).data = (Nat.repr n).data) : m = n := by
  have h2 := congrArg (fun l => signedDigitsToInt (stripList l)) h
  have h3 : pyStrToInt (Nat.repr m) = pyStrToInt (Nat.repr n) := h2
  rw [pyStrToInt_natRepr, pyStrToInt_natRepr] at h3
  simpa using h3

lemma recent_key_inj (st : PaperworkRecent) (i j : Nat)
    (h : st.key i = st.key j) : i = j := by
  have h2 := congrArg Prod.snd h
  have h3 := congrArg String.data h2
  simp only [String.data_append] at h3
  have h4 := List.append_cancel_left h3
  exact natRepr_data_inj i j h4

lemma updateFrom_get_notmem (enc : String → String) (st : PaperworkRecent)
    (vs : List String) :
    ∀ (start : Nat) (store : ConfigStore) (k : ConfigKey),
      (∀ j, start ≤ j → j < start + vs.length → k ≠ st.key j) →
      (PaperworkRecent.updateFrom enc st start vs store).get k =
        store.get k := by
  induction vs with
  | nil => intro start store k _; rfl
  | cons v rest ih =>
    intro start store k hk
    show (PaperworkRecent.updateFrom enc st (start + 1) rest
      (store.set (st.key start) (enc v))).get k = _
    rw [ih (start + 1) _ k
      (fun j h1 h2 => hk j (by omega) (by simp at h2 ⊢; omega))]
    exact get_set_other _ _ _ _ (hk start (le_refl _) (by simp))

lemma updateFrom_get_mem (enc : String → String) (st : PaperworkRecent)
    (vs : List String) :
    ∀ (start i : Nat) (store : ConfigStore) (h : i < vs.length),
      (PaperworkRecent.updateFrom enc st start vs store).get
          (st.key (start + i)) =
        some (enc (vs.get ⟨i, h⟩)) := by
  induction vs with
  | nil => intro start i store h; exact absurd h (by simp)
  | cons v rest ih =>
    intro start i store h
    show (PaperworkRecent.updateFrom enc st (start + 1) rest
      (store.set (st.key start) (enc v))).get (st.key (start + i)) = _
    match i with
    | 0 =>
      rw [updateFrom_get_notmem enc st rest (start + 1) _ _
        (fun j h1 _ hc => by
          have := recent_key_inj st (start + 0) j hc
          omega)]
      rw [Nat.add_zero]
      exact get_set_same _ _ _
    | i + 1 =>
      have := ih (start + 1) i (store.set (st.key start) (enc v))
        (by simpa using h)
      rw [show start + (i + 1) = start + 1 + i by omega]
      exact this

/-- C9: `update` on a Recent List with `n` entries writes exactly the
indexed keys at positions `0..n-1` (encoded entries) and leaves every
other store key unchanged; in particular stale indexed keys at positions
`≥ n` are not cleared. -/
theorem recent_update_frame (enc : String → String) (st : PaperworkRecent)
    (store : ConfigStore) :
    (∀ i (h : i < st.value.length),
      (PaperworkRecent.update enc st store).get (st.key i) =
        some (enc (st.value.get ⟨i, h⟩))) ∧
    (∀ k, (∀ i, i < st.value.length → k ≠ st.key i) →
      (PaperworkRecent.update enc st store).get k = store.get k) ∧
    (∀ m, st.value.length ≤ m →
      (PaperworkRecent.update enc st store).get (st.key m) =
        store.get (st.key m)) := by
  refine ⟨?_, ?_, ?_⟩
  · intro i h
    have := updateFrom_get_mem enc st st.value 0 i store h
    rw [Nat.zero_add] at this
    exact this
  · intro k hk
    exact updateFrom_get_notmem enc st st.value 0 store k
      (fun j _ h2 => hk j (by simpa using h2))
  · intro m hm
    apply updateFrom_get_notmem enc st st.value 0 store _
      (fun j _ h2 hc => ?_)
    have := recent_key_inj st m j hc
    omega

/-- Witness for C9 on a store holding a stale entry at index 2. -/
theorem recent_update_frame_witness :
    ((PaperworkRecent.update id ⟨"recent", "doc", 3, ["a", "b"]⟩
        [(("recent", "doc_2"), "stale")]).get ("recent", "doc_0") =
      some "a") ∧
    ((PaperworkRecent.update id ⟨"recent", "doc", 3, ["a", "b"]⟩
        [(("recent", "doc_2"), "stale")]).get ("recent", "doc_1") =
      some "b") ∧
    ((PaperworkRecent.update id ⟨"recent", "doc", 3, ["a", "b"]⟩
        [(("recent", "doc_2"), "stale")]).get ("recent", "doc_2") =
      some "stale") ∧
    ((PaperworkRecent.update id ⟨"recent", "doc", 3, ["a", "b"]⟩
        [(("recent", "doc_2"), "stale")]).get ("GUI", "zoom") = none) := by
  have h := recent_update_frame id ⟨"recent", "doc", 3, ["a", "b"]⟩
    [(("recent", "doc_2"), "stale")]
  refine ⟨?_, ?_, ?_, ?_⟩
  · exact h.1 0 (by decide)
  · exact h.1 1 (by decide)
  · exact (h.2.2 2 (by decide)).trans (by decide)
  · refine (h.2.1 ("GUI", "zoom") (fun i hi => ?_)).trans (by decide)
    have h2 : i < 2 := by simpa using hi
    interval_cases i <;> decide

/-- C10: the result of a Recent List load depends only on the store and
the section, base token and max length — never on the prior in-memory
entries. -/
theorem recent_load_ignores_prior (dec : String → String)
    (st1 st2 : PaperworkRecent) (store : ConfigStore)
    (hs : st1.sec = st2.sec) (hb : st1.baseToken = st2.baseToken)
    (hm : st1.maxLength = st2.maxLength) :
    (PaperworkRecent.load dec st1 store).value =
      (PaperworkRecent.load dec st2 store).value := by
  cases st1 with
  | mk s1 b1 m1 v1 =>
    cases st2 with
    | mk s2 b2 m2 v2 =>
      simp only at hs hb hm
      subst hs
      subst hb
      subst hm
      rfl

/-- Witness for C10: two lists with different prior contents load the
same entries from the same store. -/
theorem recent_load_ignores_prior_witness :
    (PaperworkRecent.load id ⟨"recent", "doc", 3, ["old", "junk"]⟩
        [(("recent", "doc_0"), "a")]).value =
      (PaperworkRecent.load id ⟨"recent", "doc", 3, ["x"]⟩
        [(("recent", "doc_0"), "a")]).value ∧
    (PaperworkRecent.load id ⟨"recent", "doc", 3, ["old", "junk"]⟩
        [(("recent", "doc_0"), "a")]).value = ["a"] := by
  constructor
  · exact recent_load_ignores_prior id ⟨"recent", "doc", 3, ["old", "junk"]⟩
      ⟨"recent", "doc", 3, ["x"]⟩ [(("recent", "doc_0"), "a")] rfl rfl rfl
  · decide

lemma push_key (st : PaperworkRecent) (v : String) (i : Nat) :
    (st.push v).key i = st.key i := by
  unfold PaperworkRecent.key
  rw [push_sec, push_baseToken]

lemma updateFrom_length (enc : String → String) (st : PaperworkRecent)
    (vs : List String) :
    ∀ (start : Nat) (store : ConfigStore),
      (PaperworkRecent.updateFrom enc st start vs store).length =
        store.length + vs.length := by
  induction vs with
  | nil => intro start store; simp [PaperworkRecent.updateFrom]
  | cons v rest ih =>
    intro start store
    show (PaperworkRecent.updateFrom enc st (start + 1) rest
      (store.set (st.key start) (enc v))).length = _
    rw [ih (start + 1) _]
    simp [ConfigStore.set]
    omega

lemma loadLoop_spec (dec : String → String) (store2 : ConfigStore) :
    ∀ (ws : List String) (start fuel : Nat) (st : PaperworkRecent),
      ws.length < fuel →
      (∀ i (h : i < ws.length),
        store2.get (st.key (start + i)) = some (ws.get ⟨i, h⟩)) →
      store2.get (st.key (start + ws.length)) = none →
      (∀ w ∈ ws, pyStrip (dec w) = dec w ∧ dec w ≠ "") →
      (st.value ++ ws.map dec).Nodup →
      st.value.length + ws.length ≤ st.maxLength →
      (PaperworkRecent.loadLoop dec store2 fuel start st).value =
        st.value ++ ws.map dec := by
  intro ws
  induction ws with
  | nil =>
    intro start fuel st hfuel hget hstop _ _ _
    match fuel, hfuel with
    | fuel + 1, _ =>
      show (match store2.get (st.key start) with
        | none => st
        | some v => PaperworkRecent.loadLoop dec store2 fuel (start + 1)
            (st.push (dec v))).value = _
      simp only [List.length_nil, Nat.add_zero] at hstop
      rw [hstop]
      simp
  | cons w ws ih =>
    intro start fuel st hfuel hget hstop hclean hnd hlen
    match fuel, hfuel with
    | fuel + 1, hfuel =>
      show (match store2.get (st.key start) with
        | none => st
        | some v => PaperworkRecent.loadLoop dec store2 fuel (start + 1)
            (st.push (dec v))).value = _
      have hget0 : store2.get (st.key start) = some w := by
        have := hget 0 (by simp)
        simpa using this
      rw [hget0]
      have hw := hclean w (by simp)
      have hwmem : dec w ∉ st.value := by
        have hdisj := List.disjoint_of_nodup_append hnd
        intro hmem
        exact hdisj hmem (by simp)
      have hpush : st.push (dec w) = { st with value := st.value ++ [dec w] } := by
        rw [push_clean st (dec w) hw.1 hw.2 hwmem]
        rw [if_neg (by simp at hlen ⊢; omega)]
      dsimp only
      rw [hpush]
      have hres := ih (start + 1) fuel { st with value := st.value ++ [dec w] }
        (by simp at hfuel ⊢; omega)
        (fun i h => by
          have := hget (i + 1) (by simp; omega)
          rw [show start + (i + 1) = start + 1 + i by omega] at this
          show store2.get (st.key (start + 1 + i)) = some (ws.get ⟨i, h⟩)
          rw [this]
          simp only [List.get_eq_getElem, List.getElem_cons_succ])
        (by
          have := hstop
          rw [show start + (w :: ws).length = start + 1 + ws.length by
            simp; omega] at this
          exact this)
        (fun x hx => hclean x (by simp [hx]))
        (by simpa using hnd)
        (by simp at hlen ⊢; omega)
      rw [hres]
      simp

/-- Counterexample for C6: entries `["a"]` (buildable via `push`, length
1 ≤ 3) written to a store that already holds a stale indexed entry at
position 1; loading back yields `["a", "b"]`, not `["a"]`. -/
theorem recent_roundtrip_cex :
    (PaperworkRecent.load id ⟨"recent", "doc", 3, ["a"]⟩
      (PaperworkRecent.update id ⟨"recent", "doc", 3, ["a"]⟩
        [(("recent", "doc_1"), "b")])).value = ["a", "b"] ∧
    (PaperworkRecent.load id ⟨"recent", "doc", 3, ["a"]⟩
      (PaperworkRecent.update id ⟨"recent", "doc", 3, ["a"]⟩
        [(("recent", "doc_1"), "b")])).value ≠ ["a"] := by
  constructor
  · decide
  · decide

/-- C6 as amended: with entries built via `push` (non-empty, stripped,
distinct, length ≤ max), a decode inverting the encode, and the store
holding no indexed entry at the position equal to the list's length,
`update` followed by `load` reproduces exactly the same ordered
entries. -/
theorem recent_roundtrip_fresh (enc dec : String → String)
    (st : PaperworkRecent) (store : ConfigStore)
    (hdec : ∀ v ∈ st.value, dec (enc v) = v)
    (hclean : ∀ v ∈ st.value, pyStrip v = v ∧ v ≠ "")
    (hnd : st.value.Nodup)
    (hlen : st.value.length ≤ st.maxLength)
    (hfresh : store.get (st.key st.value.length) = none) :
    (PaperworkRecent.load dec st
      (PaperworkRecent.update enc st store)).value = st.value := by
  unfold PaperworkRecent.load PaperworkRecent.update
  have hkey : ∀ i, ({ st with value := ([] : List String) } :
      PaperworkRecent).key i = st.key i := fun _ => rfl
  have hres := loadLoop_spec dec
    (PaperworkRecent.updateFrom enc st 0 st.value store)
    (st.value.map enc) 0
    ((PaperworkRecent.updateFrom enc st 0 st.value store).length + 1)
    { st with value := [] }
    (by
      rw [updateFrom_length]
      simp
      omega)
    (fun i h => by
      rw [hkey, Nat.zero_add]
      have h2 : i < st.value.length := by simpa using h
      have := updateFrom_get_mem enc st st.value 0 i store h2
      rw [Nat.zero_add] at this
      rw [this]
      simp only [List.get_eq_getElem, List.getElem_map]
      )
    (by
      rw [hkey, Nat.zero_add, List.length_map]
      rw [updateFrom_get_notmem enc st st.value 0 store _
        (fun j _ h2 hc => by
          have := recent_key_inj st st.value.length j hc
          omega)]
      exact hfresh)
    (fun w hw => by
      rcases List.mem_map.mp hw with ⟨v, hv, rfl⟩
      rw [hdec v hv]
      exact hclean v hv)
    (by
      simp only [List.nil_append]
      have hmapmap : (st.value.map enc).map dec = st.value := by
        rw [List.map_map]
        exact List.map_congr_left (fun v hv => hdec v hv) |>.trans
          (List.map_id _)
      rw [hmapmap]
      exact hnd)
    (by
      simp only [List.length_map, List.length_nil, Nat.zero_add]
      exact hlen)
  rw [hres]
  simp only [List.nil_append]
  rw [List.map_map]
  exact List.map_congr_left (fun v hv => hdec v hv) |>.trans (List.map_id _)

/-- Witness for the amended C6: entries `["a", "b"]` written to an empty
store load back unchanged. -/
theorem recent_roundtrip_fresh_witness :
    (ConfigStore.get []
      (PaperworkRecent.key ⟨"recent", "doc", 3, ["a", "b"]⟩ 2) = none) ∧
    (PaperworkRecent.load id ⟨"recent", "doc", 3, ["a", "b"]⟩
      (PaperworkRecent.update id ⟨"recent", "doc", 3, ["a", "b"]⟩ [])).value =
      ["a", "b"] := by
  constructor
  · rfl
  · exact recent_roundtrip_fresh id id ⟨"recent", "doc", 3, ["a", "b"]⟩ []
      (fun v _ => rfl) (by decide) (by decide) (by decide) rfl
